import Mathlib

/-!
Verification of the goroutine-identifier resolver of fsyyft-go/monorepo
(package `kit/runtime/goroutine`).

The development shallowly embeds, from the source files:
  - `strconv.ParseInt` (base 10, bit size 64) as used by `extractGID`,
    with errors discarded as the caller does;
  - `bytes.IndexByte` as `indexByte`;
  - `extractGID` and `getGoIDSlow` (goid_slow.go), with a `panic` of the
    original modelled as `none`;
  - the version/offset table `offsetDict` and the package-level `offset`
    initializer (goid_offset.go);
  - the amd64 assembly body of `GetGoID` (goid_amd64.s) as a small
    register computation `getGoIDasm`;
  - the build-tag guards selecting the four `GetGoID` bodies;
  - the field layout of the `g` structure from runtime_go1.25.go.

Facilities of the host Go runtime itself (`runtime.Stack` text, the
thread-local `g` pointer, the scheduler state) are not part of the
repository; they are modelled from the specification and each such
definition is marked `Modelled from the spec:` in its documentation.
-/

namespace FsyyftGoroutine

/-- True when the character is an ASCII decimal digit, mirroring the
`'0' <= c && c <= '9'` test of `strconv.ParseUint`. -/
def isDigitChar (c : Char) : Bool :=
  48 ≤ c.toNat && c.toNat ≤ 57

/-- The largest value of Go's `uint64`, the `maxVal` of `strconv.ParseUint`
for bit size 64. -/
def maxUint64 : Nat := 2 ^ 64 - 1

/-- The digit loop of `strconv.ParseUint` for base 10 and bit size 64:
`none` is the syntax error of the original (first non-digit byte), and the
value `maxUint64` is returned as soon as the accumulated value would pass
it, exactly as the original's range check does. -/
def parseUintLoop : List Char → Nat → Option Nat
  | [], acc => some acc
  | c :: rest, acc =>
    if isDigitChar c then
      let acc1 := 10 * acc + (c.toNat - 48)
      if maxUint64 < acc1 then some maxUint64 else parseUintLoop rest acc1
    else none

/-- `strconv.ParseInt(s, 10, 64)` with the error discarded, as the call in
`extractGID` discards it: an empty string or a syntax error yields 0, a
range error yields the saturated 64-bit bound, otherwise the signed value
of the digits. -/
def parseInt (cs : List Char) : Int :=
  match cs with
  | [] => 0
  | c0 :: rest0 =>
    let neg : Bool := c0 == '-'
    let digits := if c0 == '+' || c0 == '-' then rest0 else c0 :: rest0
    if digits.isEmpty then 0
    else
      match parseUintLoop digits 0 with
      | none => 0
      | some un =>
        if neg then
          if 2 ^ 63 < un then -((2 : Int) ^ 63) else -(un : Int)
        else
          if 2 ^ 63 ≤ un then (2 : Int) ^ 63 - 1 else (un : Int)

/-- `bytes.IndexByte`: the index of the first occurrence of `b`, or `-1`
when `b` does not occur. -/
def indexByte (s : List Char) (b : Char) : Int :=
  match s with
  | [] => -1
  | c :: rest =>
    if c = b then 0
    else
      let r := indexByte rest b
      if r = -1 then -1 else r + 1

/-- The fixed label `"goroutine "` whose length `extractGID` strips. -/
def goroutineLabel : List Char := "goroutine ".data

/-- `extractGID` from goid_slow.go.  The two slicings of the original can
panic — `s[len("goroutine "):]` when the input is shorter than the label,
and `s[:bytes.IndexByte(s, ' ')]` when no space follows the stripped
label — and a panic is modelled as `none`; a normal return is `some`. -/
def extractGID (s : List Char) : Option Int :=
  if s.length < goroutineLabel.length then none
  else
    let s1 := s.drop goroutineLabel.length
    let i := indexByte s1 ' '
    if i = -1 then none
    else some (parseInt (s1.take i.toNat))

/-- `initialBufferSize` from goid_slow.go: the fixed snapshot buffer size. -/
def initialBufferSize : Nat := 128

/-- Modelled from the spec: the diagnostic snapshot facility
(`runtime.Stack(buf, false)`) writes the snapshot text into the
caller-supplied buffer, truncating on overflow and reporting the bytes
written; `text` is the full snapshot and the result is the slice
`buf[:n]` the caller keeps. -/
def runtimeStackWrite (text : List Char) (bufSize : Nat) : List Char :=
  text.take bufSize

/-- `getGoIDSlow` from goid_slow.go: one snapshot request into the fixed
128-byte buffer, then `extractGID` on the bytes written. -/
def getGoIDSlow (text : List Char) : Option Int :=
  extractGID (runtimeStackWrite text initialBufferSize)

/-- Modelled from the spec: the decimal rendering the scheduler uses for
the identifier in the snapshot header, written with explicit fuel so that
it reduces by evaluation; `digitsOf` below supplies enough fuel. -/
def digitsOfFuel : Nat → Nat → List Char
  | 0, _ => []
  | fuel + 1, n =>
    if n < 10 then [Char.ofNat (48 + n)]
    else digitsOfFuel fuel (n / 10) ++ [Char.ofNat (48 + n % 10)]

/-- Modelled from the spec: the decimal rendering of the identifier in the
snapshot header (most significant digit first, no sign, at least one
digit). -/
def digitsOf (n : Nat) : List Char := digitsOfFuel (n + 1) n

/-- The value denoted by a digit list under the accumulator discipline of
`parseUintLoop`, free of the overflow checks. -/
def digitsVal : List Char → Nat → Nat
  | [], acc => acc
  | c :: rest, acc => digitsVal rest (10 * acc + (c.toNat - 48))

/-- `offsetDict` from goid_offset.go: the byte offset of `goid` inside the
runtime's `g` structure, per `major.minor` release of the Go runtime. -/
def offsetDict : List (String × Int) :=
  [("go1.4", 128),
   ("go1.5", 184),
   ("go1.6", 192),
   ("go1.7", 192),
   ("go1.8", 192),
   ("go1.9", 152),
   ("go1.10", 152),
   ("go1.11", 152),
   ("go1.12", 152),
   ("go1.13", 152),
   ("go1.14", 152),
   ("go1.15", 152),
   ("go1.16", 152),
   ("go1.17", 152),
   ("go1.18", 152),
   ("go1.19", 152),
   ("go1.20", 152),
   ("go1.21", 152),
   ("go1.22", 152),
   ("go1.23", 160),
   ("go1.24", 160),
   ("go1.25", 152)]

/-- Indexing a Go map: the value bound to the first matching key, or the
zero value 0 when the key is absent, as `offsetDict[ver]` behaves. -/
def goMapGet (m : List (String × Int)) (k : String) : Int :=
  match m with
  | [] => 0
  | (a, b) :: rest => if k = a then b else goMapGet rest k

/-- True when the key has an entry in the table. -/
def goMapHasKey (m : List (String × Int)) (k : String) : Bool :=
  m.any (fun p => p.1 == k)

/-- `strings.Split(s, ".")`: the maximal dot-free segments of `s`, with the
separator consumed; always at least one (possibly empty) segment. -/
def splitOnDot : List Char → List (List Char)
  | [] => [[]]
  | c :: rest =>
    if c = '.' then [] :: splitOnDot rest
    else
      match splitOnDot rest with
      | [] => [[c]]
      | p :: ps => (c :: p) :: ps

/-- `strings.Join(parts, ".")`: the segments re-joined with a dot between
consecutive segments. -/
def joinDot : List (List Char) → List Char
  | [] => []
  | [p] => p
  | p :: ps => p ++ '.' :: joinDot ps

/-- The version key computed by the `offset` initializer of goid_offset.go:
`strings.Join(strings.Split(v, ".")[:2], ".")`.  The slicing `[:2]` of the
original panics when the split yields fewer than two parts (a version
string without a dot); the panic is modelled as `none`. -/
def versionKey (v : String) : Option String :=
  if (splitOnDot v.data).length < 2 then none
  else some (String.mk (joinDot ((splitOnDot v.data).take 2)))

/-- The package-level `offset` initializer of goid_offset.go applied to a
runtime version string: the table value of the version key, the zero value
0 when the key is absent, and `none` when the key computation panics. -/
def offsetResolve (v : String) : Option Int :=
  match versionKey v with
  | none => none
  | some k => some (goMapGet offsetDict k)

/-- The specification's description of the version key, written from its
words alone: the `major.minor` identifier, that is, the version string
truncated right before its second dot.  `seen` counts the dots already
kept. -/
def majorMinor : List Char → Nat → List Char
  | [], _ => []
  | c :: rest, seen =>
    if c = '.' then
      if seen = 0 then c :: majorMinor rest 1 else []
    else c :: majorMinor rest seen

/-- The architecture-specific state the amd64 `GetGoID` body reads: the
thread-local pointer to the current `g`, the package-level `offset`
global, and 64-bit memory loads.  `mem64 a` is the signed 64-bit integer
stored at byte address `a`. -/
structure FastState where
  tlsG : Nat
  offsetVar : Int
  mem64 : Nat → Int

/-- A 64-bit machine word holding the two's-complement pattern of `x`. -/
def word64 (x : Int) : Nat := (x % (2 ^ 64 : Int)).toNat

/-- The amd64 assembly body of `GetGoID` (goid_amd64.s), register by
register: `MOVQ g(CX), AX` reads the thread-local `g` pointer, `MOVQ
·offset(SB), BX` reads the resolved offset global, `LEAQ 0(AX)(BX*1), DX`
forms their sum modulo 2^64, and `MOVQ (DX), AX` loads the result. -/
def getGoIDasm (st : FastState) : Int :=
  let ax := st.tlsG % 2 ^ 64
  let bx := word64 st.offsetVar
  let dx := (ax + bx * 1) % 2 ^ 64
  st.mem64 dx

/-- The least multiple of `a` that is not below `o` (field alignment). -/
def alignUp (o a : Nat) : Nat := (o + a - 1) / a * a

/-- The size of a structure with the given (size, alignment) fields laid
out in order from offset `o`, before trailing padding. -/
def structEnd (fields : List (Nat × Nat)) (o : Nat) : Nat :=
  match fields with
  | [] => o
  | (sz, al) :: rest => structEnd rest (alignUp o al + sz)

/-- The fields of the `g` structure of runtime_go1.25.go that precede
`goid`, as (size, alignment) pairs for 8-byte pointers: `stack` (two
`uintptr`), `stackguard0`, `stackguard1`, `_panic`, `_defer`, `m`, the
`sched` gobuf (`sp`, `pc`, `g`, `ctxt`, `lr`, `bp`), `syscallsp`,
`syscallpc`, `syscallbp`, `stktopsp`, `param`, `atomicstatus` and
`stackLock` (two `uint32`). -/
def g125FieldsBeforeGoid : List (Nat × Nat) :=
  [(16, 8),
   (8, 8), (8, 8),
   (8, 8), (8, 8), (8, 8),
   (48, 8),
   (8, 8), (8, 8), (8, 8),
   (8, 8), (8, 8),
   (4, 4), (4, 4)]

/-- The byte offset of the `goid` field in the `g` structure of
runtime_go1.25.go: the end of the preceding fields aligned up to the
8-byte alignment of `int64`. -/
def g125goidOffset : Nat := alignUp (structEnd g125FieldsBeforeGoid 0) 8

/-- The arm64 non-windows body of `GetGoID`: `getg().goid`, a load of the
`goid` field at its compile-time offset in the go1.25 `g` layout. -/
def getGoIDarm64 (tlsG : Nat) (mem64 : Nat → Int) : Int :=
  mem64 (tlsG + g125goidOffset)

/-- The architectures distinguished by the build tags of the four
`GetGoID` definitions. -/
inductive GoArch
  | amd64
  | arm64
  | other
deriving DecidableEq

/-- An (OS, architecture) pair as the build tags see it: whether the OS is
windows, and the architecture family. -/
structure BuildPlatform where
  isWindows : Bool
  arch : GoArch

/-- Build tag `amd64` of the assembly `GetGoID` and its declaration. -/
def tagGoidAsm (p : BuildPlatform) : Bool :=
  p.arch == GoArch.amd64

/-- Build tag `!windows && arm64` of the `getg().goid` body. -/
def tagGoidArm64 (p : BuildPlatform) : Bool :=
  !p.isWindows && p.arch == GoArch.arm64

/-- Build tag `windows && arm64` of the windows/arm64 slow-path body. -/
def tagGoidWinArm64 (p : BuildPlatform) : Bool :=
  p.isWindows && p.arch == GoArch.arm64

/-- Build tag `!arm64 && !amd64` of the fallback slow-path body. -/
def tagGoidFallback (p : BuildPlatform) : Bool :=
  !(p.arch == GoArch.arm64) && !(p.arch == GoArch.amd64)

/-- How many of the four build-tag-guarded `GetGoID` definitions are
linked into the build for a platform. -/
def linkedGetGoIDCount (p : BuildPlatform) : Nat :=
  [tagGoidAsm p, tagGoidArm64 p, tagGoidWinArm64 p, tagGoidFallback p].count true

/-- Modelled from the spec: the scheduler state both resolution paths
observe at the same instant on an accelerated build — the current task's
identifier, the running runtime version, the resolved offset global, the
thread-local `g` pointer, runtime memory, and the snapshot text following
the identifier's header. -/
structure SchedState where
  gid : Nat
  version : String
  off : Int
  tlsG : Nat
  mem64 : Nat → Int
  stackRest : List Char

/-- The architecture-specific state the fast path reads, taken from the
scheduler state. -/
def SchedState.toFast (s : SchedState) : FastState :=
  ⟨s.tlsG, s.off, s.mem64⟩

/-- Modelled from the spec: the full diagnostic snapshot text, whose
header is the fixed label, the decimal identifier, a space, and the rest
of the dump. -/
def SchedState.snapshotFull (s : SchedState) : List Char :=
  goroutineLabel ++ digitsOf s.gid ++ ' ' :: s.stackRest

/-- Modelled from the spec: the consistency of one observation instant on
a supported accelerated build — the identifier is a positive value of the
signed 64-bit range, the offset global is the value the initializer
resolved for the running version, the load address stays inside the
64-bit address space, and the control block holds the identifier at the
resolved offset. -/
def SchedState.consistent (s : SchedState) : Prop :=
  s.gid < 2 ^ 63 ∧
  offsetResolve s.version = some s.off ∧
  s.tlsG + s.off.toNat < 2 ^ 64 ∧
  s.mem64 (s.tlsG + s.off.toNat) = (s.gid : Int)

/-- The public resolver `GetGoID` on an accelerated build: the amd64 fast
path applied to the scheduler state. -/
def fastPathResolver (s : SchedState) : Int :=
  getGoIDasm s.toFast

/-- The public resolver `GetGoIDSlow`: the slow path applied to the
snapshot the runtime writes for the same state. -/
def slowPathResolver (s : SchedState) : Option Int :=
  getGoIDSlow s.snapshotFull

/-- The observable interaction of one `getGoIDSlow` call with the
diagnostic snapshot facility: the buffer sizes of the snapshot requests
it makes, in order, the bytes it parses, and its result. -/
structure SlowPathTrace where
  requests : List Nat
  parsedInput : List Char
  result : Option Int

/-- `getGoIDSlow` with its snapshot interaction recorded: the body of
goid_slow.go makes a single `runtime.Stack` request with the fixed
128-byte buffer and parses the bytes that request wrote. -/
def getGoIDSlowTrace (text : List Char) : SlowPathTrace :=
  let written := runtimeStackWrite text initialBufferSize
  { requests := [initialBufferSize],
    parsedInput := written,
    result := extractGID written }

/-- A concrete consistent scheduler state used to witness the conditional
theorems: task 7 on a go1.25 runtime, control block at address 0. -/
def sampleSched : SchedState :=
  { gid := 7,
    version := "go1.25",
    off := 152,
    tlsG := 0,
    mem64 := fun a => if a == 152 then (7 : Int) else 0,
    stackRest := "[running]:".data }

/-- A concrete fast-path machine state used to witness the conditional
theorems: control block at address 0 with the go1.25 offset. -/
def sampleFast : FastState :=
  { tlsG := 0,
    offsetVar := 152,
    mem64 := fun a => if a == 152 then (7 : Int) else 0 }

/-- A second consistent scheduler state for the same task 7: the task has
moved to another worker thread, so the control block address and memory
differ while the identifier does not. -/
def sampleSched2 : SchedState :=
  { gid := 7,
    version := "go1.25",
    off := 152,
    tlsG := 64,
    mem64 := fun a => if a == 216 then (7 : Int) else 9,
    stackRest := "[runnable]:".data }

/-! Helper lemmas about the decimal rendering. -/

theorem digitsOfFuel_congr :
    ∀ f₁ f₂ n, n < f₁ → n < f₂ → digitsOfFuel f₁ n = digitsOfFuel f₂ n := by
  intro f₁
  induction f₁ with
  | zero => intro f₂ n h₁ _; omega
  | succ f ih =>
    intro f₂ n h₁ h₂
    cases f₂ with
    | zero => omega
    | succ f' =>
      by_cases h : n < 10
      · simp [digitsOfFuel, h]
      · have hd : n / 10 < f := by
          have := Nat.div_lt_self (show 0 < n by omega) (show 1 < 10 by omega)
          omega
        have hd' : n / 10 < f' := by
          have := Nat.div_lt_self (show 0 < n by omega) (show 1 < 10 by omega)
          omega
        simp only [digitsOfFuel, if_neg h]
        rw [ih f' (n / 10) hd hd']

theorem digitsOf_lt {n : Nat} (h : n < 10) :
    digitsOf n = [Char.ofNat (48 + n)] := by
  simp [digitsOf, digitsOfFuel, h]

theorem digitsOf_ge {n : Nat} (h : 10 ≤ n) :
    digitsOf n = digitsOf (n / 10) ++ [Char.ofNat (48 + n % 10)] := by
  have hd : n / 10 < n := Nat.div_lt_self (by omega) (by omega)
  have h1 : digitsOf n = digitsOfFuel n (n / 10) ++ [Char.ofNat (48 + n % 10)] := by
    rw [digitsOf]
    simp only [digitsOfFuel, if_neg (show ¬n < 10 by omega)]
  rw [h1, digitsOf, digitsOfFuel_congr n (n / 10 + 1) (n / 10) hd (Nat.lt_succ_self _)]

theorem toNat_ofNat_digit {d : Nat} (h : d < 10) :
    (Char.ofNat (48 + d)).toNat = 48 + d := by
  interval_cases d <;> decide

theorem isDigitChar_ofNat_digit {d : Nat} (h : d < 10) :
    isDigitChar (Char.ofNat (48 + d)) = true := by
  interval_cases d <;> decide

theorem digitsOf_ne_nil (n : Nat) : digitsOf n ≠ [] := by
  by_cases h : n < 10
  · simp [digitsOf_lt h]
  · simp [digitsOf_ge (show 10 ≤ n by omega)]

theorem mem_digitsOf_isDigit (n : Nat) :
    ∀ c ∈ digitsOf n, isDigitChar c = true := by
  induction n using Nat.strongRecOn with
  | _ n ih =>
    by_cases h : n < 10
    · simp only [digitsOf_lt h, List.mem_singleton]
      intro c hc
      exact hc ▸ isDigitChar_ofNat_digit h
    · simp only [digitsOf_ge (show 10 ≤ n by omega), List.mem_append,
        List.mem_singleton]
      intro c hc
      rcases hc with hc | hc
      · exact ih (n / 10) (Nat.div_lt_self (by omega) (by omega)) c hc
      · exact hc ▸ isDigitChar_ofNat_digit (Nat.mod_lt _ (by omega))

theorem isDigitChar_ne_space {c : Char} (h : isDigitChar c = true) :
    c ≠ ' ' := by
  intro he
  rw [he] at h
  exact absurd h (by decide)

theorem mem_digitsOf_ne_space (n : Nat) : ∀ c ∈ digitsOf n, c ≠ ' ' :=
  fun c hc => isDigitChar_ne_space (mem_digitsOf_isDigit n c hc)

theorem digitsVal_append (xs : List Char) (c : Char) :
    ∀ acc, digitsVal (xs ++ [c]) acc = 10 * digitsVal xs acc + (c.toNat - 48) := by
  induction xs with
  | nil => intro acc; rfl
  | cons x xs ih =>
    intro acc
    have hstep : digitsVal ((x :: xs) ++ [c]) acc
        = digitsVal (xs ++ [c]) (10 * acc + (x.toNat - 48)) := rfl
    rw [hstep, ih]
    rfl

theorem digitsVal_digitsOf (n : Nat) : digitsVal (digitsOf n) 0 = n := by
  induction n using Nat.strongRecOn with
  | _ n ih =>
    by_cases h : n < 10
    · simp only [digitsOf_lt h, digitsVal, toNat_ofNat_digit h]
      omega
    · rw [digitsOf_ge (show 10 ≤ n by omega), digitsVal_append,
        ih (n / 10) (Nat.div_lt_self (by omega) (by omega)),
        toNat_ofNat_digit (Nat.mod_lt _ (by omega))]
      omega

theorem digitsOf_length_le : ∀ k n, 1 ≤ k → n < 10 ^ k → (digitsOf n).length ≤ k := by
  intro k
  induction k with
  | zero => omega
  | succ k ih =>
    intro n _ hn
    by_cases h : n < 10
    · simp [digitsOf_lt h]
    · have hk : 1 ≤ k := by
        by_contra hk0
        have : k = 0 := by omega
        subst this
        simp at hn
        omega
      have hdiv : n / 10 < 10 ^ k := by
        rw [Nat.div_lt_iff_lt_mul (by omega)]
        calc n < 10 ^ (k + 1) := hn
        _ = 10 ^ k * 10 := by ring
      have := ih (n / 10) hk hdiv
      simp only [digitsOf_ge (show 10 ≤ n by omega), List.length_append,
        List.length_singleton]
      omega

/-! Helper lemmas about the parse loop. -/

theorem le_digitsVal (ds : List Char) : ∀ acc, acc ≤ digitsVal ds acc := by
  induction ds with
  | nil => intro acc; simp [digitsVal]
  | cons c rest ih =>
    intro acc
    calc acc ≤ 10 * acc + (c.toNat - 48) := by omega
    _ ≤ digitsVal rest (10 * acc + (c.toNat - 48)) := ih _
    _ = digitsVal (c :: rest) acc := rfl

theorem parseUintLoop_eq (ds : List Char) :
    ∀ acc, (∀ c ∈ ds, isDigitChar c = true) → digitsVal ds acc ≤ maxUint64 →
      parseUintLoop ds acc = some (digitsVal ds acc) := by
  induction ds with
  | nil => intro acc _ _; rfl
  | cons c rest ih =>
    intro acc hdig hle
    have hc : isDigitChar c = true := hdig c (List.mem_cons_self _ _)
    have hval : digitsVal (c :: rest) acc = digitsVal rest (10 * acc + (c.toNat - 48)) := rfl
    have hmono : 10 * acc + (c.toNat - 48) ≤ digitsVal rest (10 * acc + (c.toNat - 48)) :=
      le_digitsVal _ _
    simp only [parseUintLoop, hc, if_true]
    rw [if_neg (by rw [hval] at hle; omega)]
    rw [hval]
    exact ih _ (fun d hd => hdig d (List.mem_cons_of_mem _ hd)) (hval ▸ hle)

theorem beq_false_of_isDigit {c d : Char} (hc : isDigitChar c = true)
    (hd : isDigitChar d = false) : (c == d) = false := by
  cases hb : c == d
  · rfl
  · rw [eq_of_beq hb] at hc
    rw [hc] at hd
    exact absurd hd (by simp)

theorem parseInt_digitsOf {n : Nat} (h : n < 2 ^ 63) :
    parseInt (digitsOf n) = (n : Int) := by
  obtain ⟨c, rest, hcr⟩ := List.exists_cons_of_ne_nil (digitsOf_ne_nil n)
  have hc : isDigitChar c = true :=
    mem_digitsOf_isDigit n c (by rw [hcr]; exact List.mem_cons_self _ _)
  have hcp : (c == '+') = false := beq_false_of_isDigit hc (by decide)
  have hcm : (c == '-') = false := beq_false_of_isDigit hc (by decide)
  have hloop : parseUintLoop (digitsOf n) 0 = some n := by
    rw [parseUintLoop_eq (digitsOf n) 0 (mem_digitsOf_isDigit n)
      (by rw [digitsVal_digitsOf]; simp only [maxUint64]; omega)]
    rw [digitsVal_digitsOf]
  rw [hcr] at hloop ⊢
  simp only [parseInt, hcp, hcm, Bool.or_self, Bool.false_eq_true, if_false,
    List.isEmpty_cons, hloop]
  rw [if_neg (show ¬2 ^ 63 ≤ n by omega)]

theorem parseInt_no_digits (cs : List Char)
    (h : ∀ c ∈ cs, isDigitChar c = false) : parseInt cs = 0 := by
  cases cs with
  | nil => rfl
  | cons c rest =>
    have hc : isDigitChar c = false := h c (List.mem_cons_self _ _)
    by_cases hs : (c == '+' || c == '-') = true
    · cases rest with
      | nil => simp [parseInt, hs]
      | cons d rest' =>
        have hd : isDigitChar d = false :=
          h d (List.mem_cons_of_mem _ (List.mem_cons_self _ _))
        simp [parseInt, hs, parseUintLoop, hd]
    · have hs' : (c == '+' || c == '-') = false := by
        cases hb : (c == '+' || c == '-')
        · rfl
        · exact absurd hb hs
      simp [parseInt, hs', parseUintLoop, hc]

/-! Helper lemmas about `indexByte` and `extractGID`. -/

theorem indexByte_append_space (xs zs : List Char)
    (h : ∀ c ∈ xs, c ≠ ' ') :
    indexByte (xs ++ ' ' :: zs) ' ' = (xs.length : Int) := by
  induction xs with
  | nil => simp [indexByte]
  | cons c xs ih =>
    have hc : c ≠ ' ' := h c (List.mem_cons_self _ _)
    have hr : indexByte (xs ++ ' ' :: zs) ' ' = (xs.length : Int) :=
      ih (fun d hd => h d (List.mem_cons_of_mem _ hd))
    have hne : ¬((xs.length : Int) = -1) := by omega
    simp only [List.cons_append, indexByte, List.append_eq, if_neg hc, hr,
      if_neg hne, List.length_cons]
    push_cast
    ring

theorem extractGID_label (pre post : List Char)
    (hpre : ∀ c ∈ pre, c ≠ ' ') :
    extractGID (goroutineLabel ++ pre ++ ' ' :: post) = some (parseInt pre) := by
  have hlen : ¬(goroutineLabel ++ (pre ++ ' ' :: post)).length < goroutineLabel.length := by
    simp only [List.length_append]
    omega
  have hidx : indexByte ((pre ++ ' ' :: post)) ' ' = (pre.length : Int) :=
    indexByte_append_space pre post hpre
  have hne : ¬((pre.length : Int) = -1) := by omega
  simp only [extractGID, if_neg hlen, List.append_assoc, List.drop_left, hidx,
    if_neg hne]
  rw [Int.toNat_ofNat, List.take_left]

theorem getGoIDSlow_header (gid : Nat) (rest : List Char) (h : gid < 2 ^ 63) :
    getGoIDSlow (goroutineLabel ++ digitsOf gid ++ ' ' :: rest) = some (gid : Int) := by
  have hdlen : (digitsOf gid).length ≤ 19 := by
    apply digitsOf_length_le 19 gid (by omega)
    calc gid < 2 ^ 63 := h
    _ < 10 ^ 19 := by norm_num
  have hsplit : (goroutineLabel ++ digitsOf gid ++ ' ' :: rest).take initialBufferSize
      = goroutineLabel ++ digitsOf gid ++ ' '
        :: rest.take (initialBufferSize - (goroutineLabel ++ digitsOf gid ++ [' ']).length) := by
    have hA : goroutineLabel ++ digitsOf gid ++ ' ' :: rest
        = (goroutineLabel ++ digitsOf gid ++ [' ']) ++ rest := by
      simp [List.append_assoc]
    rw [hA, List.take_append_eq_append_take,
      List.take_of_length_le (l := goroutineLabel ++ digitsOf gid ++ [' '])
        (by simp only [List.length_append, goroutineLabel, initialBufferSize]; simp; omega)]
    simp [List.append_assoc]
  rw [getGoIDSlow, runtimeStackWrite, hsplit,
    extractGID_label _ _ (mem_digitsOf_ne_space gid), parseInt_digitsOf h]

/-! Helper lemmas about the offset table. -/

theorem goMapGet_bounds (m : List (String × Int)) (k : String)
    (h : ∀ p ∈ m, 0 ≤ p.2 ∧ p.2 < 2 ^ 64) :
    0 ≤ goMapGet m k ∧ goMapGet m k < 2 ^ 64 := by
  induction m with
  | nil => constructor <;> [exact le_refl 0; positivity]
  | cons a rest ih =>
    obtain ⟨x, y⟩ := a
    by_cases hk : k = x
    · simpa [goMapGet, hk] using h (x, y) (List.mem_cons_self _ _)
    · simp only [goMapGet, if_neg hk]
      exact ih (fun p hp => h p (List.mem_cons_of_mem _ hp))

theorem offsetDict_vals : ∀ p ∈ offsetDict, 0 ≤ p.2 ∧ p.2 < 2 ^ 64 := by
  decide

theorem goMapGet_absent (m : List (String × Int)) (k : String)
    (h : goMapHasKey m k = false) : goMapGet m k = 0 := by
  induction m with
  | nil => rfl
  | cons a rest ih =>
    obtain ⟨x, y⟩ := a
    simp only [goMapHasKey, List.any_cons, Bool.or_eq_false_iff] at h
    obtain ⟨hx, hrest⟩ := h
    have hk : k ≠ x := by
      intro he
      rw [he] at hx
      simp at hx
    rw [goMapGet, if_neg hk]
    exact ih hrest

theorem offsetResolve_bounds {v : String} {off : Int}
    (h : offsetResolve v = some off) : 0 ≤ off ∧ off < 2 ^ 64 := by
  rw [offsetResolve] at h
  cases hv : versionKey v with
  | none => rw [hv] at h; exact absurd h (by simp)
  | some k =>
    rw [hv] at h
    have : goMapGet offsetDict k = off := by
      simpa using h
    exact this ▸ goMapGet_bounds offsetDict k offsetDict_vals

/-! Helper lemmas about the amd64 register computation. -/

theorem getGoIDasm_load (st : FastState)
    (h0 : 0 ≤ st.offsetVar) (h1 : st.offsetVar < 2 ^ 64)
    (h2 : st.tlsG + st.offsetVar.toNat < 2 ^ 64) :
    getGoIDasm st = st.mem64 (st.tlsG + st.offsetVar.toNat) := by
  have hword : word64 st.offsetVar = st.offsetVar.toNat := by
    rw [word64, Int.emod_eq_of_lt h0 (by exact_mod_cast h1)]
  have htls : st.tlsG % 2 ^ 64 = st.tlsG := Nat.mod_eq_of_lt (by omega)
  rw [getGoIDasm, hword, htls, Nat.mul_one, Nat.mod_eq_of_lt h2]

theorem fastPath_gid (s : SchedState) (h : s.consistent) :
    fastPathResolver s = (s.gid : Int) := by
  obtain ⟨_, hoff, hfit, hmem⟩ := h
  obtain ⟨h0, h1⟩ := offsetResolve_bounds hoff
  rw [fastPathResolver, getGoIDasm_load s.toFast h0 h1 hfit]
  exact hmem

/-! Helper lemmas about the version key computation. -/

theorem splitOnDot_head :
    ∀ s : List Char, ∃ ps, splitOnDot s = majorMinor s 1 :: ps := by
  intro s
  induction s with
  | nil => exact ⟨[], rfl⟩
  | cons c rest ih =>
    by_cases hc : c = '.'
    · subst hc
      refine ⟨splitOnDot rest, ?_⟩
      simp [splitOnDot, majorMinor]
    · obtain ⟨ps, hps⟩ := ih
      refine ⟨ps, ?_⟩
      simp [splitOnDot, if_neg hc, hps, majorMinor]

theorem joinDot_take_two :
    ∀ s : List Char, 2 ≤ (splitOnDot s).length →
      joinDot ((splitOnDot s).take 2) = majorMinor s 0 := by
  intro s
  induction s with
  | nil => intro h; simp [splitOnDot] at h
  | cons c rest ih =>
    intro h
    by_cases hc : c = '.'
    · subst hc
      obtain ⟨ps, hps⟩ := splitOnDot_head rest
      simp only [splitOnDot, if_pos rfl, hps, majorMinor, List.take_succ_cons, List.take_zero]
      rfl
    · obtain ⟨ps, hps⟩ := splitOnDot_head rest
      rw [splitOnDot, if_neg hc, hps] at h ⊢
      cases ps with
      | nil => simp at h
      | cons q ps' =>
        have hrest : 2 ≤ (splitOnDot rest).length := by
          rw [hps]
          simp
        have hih := ih hrest
        rw [hps] at hih
        simp only [List.take_succ_cons, List.take_zero] at hih ⊢
        simp only [majorMinor, if_neg hc]
        rw [← hih]
        rfl

/-! The claims. -/

/-- Claim C1: on a build where both resolution paths exist, one invocation
of the fast-path resolver and one of the slow-path resolver on the same
task, observing the same scheduler state with no intervening scheduling
point, return the same signed 64-bit value (the slow path returning it
normally, without a panic). -/
theorem claim1_fast_slow_agree (s : SchedState) (h : s.consistent) :
    slowPathResolver s = some (fastPathResolver s) := by
  rw [fastPath_gid s h, slowPathResolver, SchedState.snapshotFull]
  exact getGoIDSlow_header s.gid s.stackRest h.1

/-- Witness for C1 at a concrete consistent state: task 7 on go1.25 with
the control block at address 0. -/
theorem claim1_fast_slow_agree_witness :
    sampleSched.consistent ∧
    slowPathResolver sampleSched = some (fastPathResolver sampleSched) :=
  ⟨⟨by decide, by decide, by decide, by decide⟩,
    claim1_fast_slow_agree sampleSched ⟨by decide, by decide, by decide, by decide⟩⟩

/-- Claim C2: for a runtime version string whose `major.minor` key is
absent from the offset table, the resolved offset is the default value 0,
returned normally (`some`), with no error or failure surfaced. -/
theorem claim2_absent_version_zero (v k : String)
    (hk : versionKey v = some k)
    (habs : goMapHasKey offsetDict k = false) :
    offsetResolve v = some 0 := by
  simp only [offsetResolve, hk]
  rw [goMapGet_absent offsetDict k habs]

/-- Witness for C2 at the unsupported version string "go99.0". -/
theorem claim2_absent_version_zero_witness :
    versionKey "go99.0" = some "go99.0" ∧
    goMapHasKey offsetDict "go99.0" = false ∧
    offsetResolve "go99.0" = some 0 :=
  ⟨by decide, by decide,
    claim2_absent_version_zero "go99.0" "go99.0" (by decide) (by decide)⟩

/-- Counterexample to C3 as stated: the snapshot "goroutine x" begins with
the fixed label, contains no digit after it, and `extractGID` panics on it
(the `s[:bytes.IndexByte(s, ' ')]` slicing with index -1), modelled as
`none` — it does not return 0 without panicking. -/
theorem claim3_counterexample :
    ("goroutine x".data).take goroutineLabel.length = goroutineLabel ∧
    (∀ c ∈ ("goroutine x".data).drop goroutineLabel.length, isDigitChar c = false) ∧
    extractGID ("goroutine x".data) = none := by
  refine ⟨by decide, by decide, by decide⟩

/-- Claim C3 amended: for every snapshot that begins with the fixed label
and in which a space delimiter follows the label, with only non-digit,
non-space bytes between label and delimiter, `extractGID` returns 0
without panicking; without such a delimiter the parser panics. -/
theorem claim3_amended_no_digits_zero (pre post : List Char)
    (h : ∀ c ∈ pre, isDigitChar c = false ∧ c ≠ ' ') :
    extractGID (goroutineLabel ++ pre ++ ' ' :: post) = some 0 := by
  rw [extractGID_label pre post (fun c hc => (h c hc).2)]
  rw [parseInt_no_digits pre (fun c hc => (h c hc).1)]

/-- Witness for the amended C3 on the snapshot "goroutine abc [running]:". -/
theorem claim3_amended_no_digits_zero_witness :
    (∀ c ∈ ("abc".data), isDigitChar c = false ∧ c ≠ ' ') ∧
    extractGID (goroutineLabel ++ "abc".data ++ ' ' :: "[running]:".data) = some 0 :=
  ⟨by decide, claim3_amended_no_digits_zero ("abc".data) ("[running]:".data) (by decide)⟩

/-- Counterexample to C4 as stated: on the claim's own example snapshot
"label 42 trailing", `extractGID` does not return 42 — it strips the fixed
10-byte label length, leaving "railing", finds no space, and panics
(modelled as `none`). -/
theorem claim4_counterexample :
    extractGID ("label 42 trailing".data) = none ∧
    extractGID ("label 42 trailing".data) ≠ some 42 := by
  refine ⟨by decide, by decide⟩

/-- Claim C4 amended: for every snapshot whose header has the form
"<label> <decimal-digits> <remainder>" with the label equal to the fixed
label "goroutine" (the only label whose length matches the fixed strip),
the parser strips the label, scans to the next space, parses the digit
span as a signed base-10 64-bit integer, and returns it. -/
theorem claim4_fixed_label_parses (n : Nat) (rest : List Char)
    (h : n < 2 ^ 63) :
    extractGID (goroutineLabel ++ digitsOf n ++ ' ' :: rest) = some (n : Int) := by
  rw [extractGID_label (digitsOf n) rest (mem_digitsOf_ne_space n)]
  rw [parseInt_digitsOf h]

/-- Witness for the amended C4 on the snapshot "goroutine 42 trailing". -/
theorem claim4_fixed_label_parses_witness :
    (42 : Nat) < 2 ^ 63 ∧
    extractGID (goroutineLabel ++ digitsOf 42 ++ ' ' :: "trailing".data) = some 42 :=
  ⟨by decide, claim4_fixed_label_parses 42 ("trailing".data) (by decide)⟩

/-- Claim C5: on the accelerated builds the fast path returns exactly the
64-bit integer loaded at (thread-local control-block pointer) + (the
offset-table value resolved for the active runtime version): the amd64
register sequence produces that load for any resolved version, and the
arm64 struct-field body loads at the go1.25 table value. -/
theorem claim5_fast_load_formula (st : FastState) (v k : String)
    (t : Nat) (m : Nat → Int)
    (hk : versionKey v = some k)
    (hoff : st.offsetVar = goMapGet offsetDict k)
    (hfit : st.tlsG + st.offsetVar.toNat < 2 ^ 64) :
    getGoIDasm st = st.mem64 (st.tlsG + st.offsetVar.toNat) ∧
    getGoIDarm64 t m = m (t + (goMapGet offsetDict "go1.25").toNat) := by
  have hb := goMapGet_bounds offsetDict k offsetDict_vals
  constructor
  · exact getGoIDasm_load st (by rw [hoff]; exact hb.1) (by rw [hoff]; exact hb.2) hfit
  · rw [getGoIDarm64, show g125goidOffset = (goMapGet offsetDict "go1.25").toNat
      from by decide]

/-- Witness for C5 with the go1.25 offset, control block at address 0. -/
theorem claim5_fast_load_formula_witness :
    versionKey "go1.25.1" = some "go1.25" ∧
    sampleFast.offsetVar = goMapGet offsetDict "go1.25" ∧
    sampleFast.tlsG + sampleFast.offsetVar.toNat < 2 ^ 64 ∧
    getGoIDasm sampleFast = sampleFast.mem64 (sampleFast.tlsG + sampleFast.offsetVar.toNat) :=
  ⟨by decide, by decide, by decide,
    (claim5_fast_load_formula sampleFast "go1.25.1" "go1.25" 0 sampleFast.mem64
      (by decide) (by decide) (by decide)).1⟩

/-- Claim C6: every invocation of the slow-path reader makes exactly one
diagnostic snapshot request, with the fixed 128-byte buffer, never
retries, and parses the identifier from the bytes actually written into
that buffer (the snapshot truncated to the buffer size). -/
theorem claim6_slow_single_request (text : List Char) :
    (getGoIDSlowTrace text).requests = [initialBufferSize] ∧
    initialBufferSize = 128 ∧
    (getGoIDSlowTrace text).parsedInput = runtimeStackWrite text initialBufferSize ∧
    (getGoIDSlowTrace text).result = extractGID (runtimeStackWrite text initialBufferSize) ∧
    getGoIDSlow text = (getGoIDSlowTrace text).result :=
  ⟨rfl, rfl, rfl, rfl, rfl⟩

/-- Claim C7: for every (OS, architecture) pair exactly one of the four
build-tag-guarded `GetGoID` definitions (amd64; arm64 and not windows;
arm64 and windows; neither amd64 nor arm64) is linked into the build: the
guards are mutually exclusive and exhaustive. -/
theorem claim7_linked_unique : ∀ p : BuildPlatform, linkedGetGoIDCount p = 1 := by
  intro p
  obtain ⟨w, a⟩ := p
  cases a <;> cases w <;> decide

/-- Claim C8: for every runtime version string with at least two
dot-separated components, the key used for the offset-table lookup is the
version string truncated to everything before its second dot — its first
two dot-separated components joined by a dot, the `major.minor`
identifier of the specification. -/
theorem claim8_version_key_major_minor (v : String)
    (h : 2 ≤ (splitOnDot v.data).length) :
    versionKey v = some (String.mk (majorMinor v.data 0)) := by
  rw [versionKey, if_neg (by omega), joinDot_take_two v.data h]

/-- Witness for C8 at the version string "go1.25.1". -/
theorem claim8_version_key_major_minor_witness :
    2 ≤ (splitOnDot ("go1.25.1".data)).length ∧
    versionKey "go1.25.1" = some (String.mk (majorMinor ("go1.25.1".data) 0)) :=
  ⟨by decide, claim8_version_key_major_minor "go1.25.1" (by decide)⟩

/-- Claim C9: repeated calls within the same task are idempotent — three
consecutive invocations of the fast-path resolver on one live task, in
consistent scheduler states sharing the task's identifier, return the
same value. -/
theorem claim9_idempotent (s1 s2 s3 : SchedState)
    (h1 : s1.consistent) (h2 : s2.consistent) (h3 : s3.consistent)
    (e12 : s1.gid = s2.gid) (e23 : s2.gid = s3.gid) :
    fastPathResolver s1 = fastPathResolver s2 ∧
    fastPathResolver s2 = fastPathResolver s3 := by
  rw [fastPath_gid s1 h1, fastPath_gid s2 h2, fastPath_gid s3 h3, e12, e23]
  exact ⟨rfl, rfl⟩

/-- Witness for C9: task 7 read in one state, then twice after moving to
another worker thread. -/
theorem claim9_idempotent_witness :
    sampleSched.consistent ∧ sampleSched2.consistent ∧
    fastPathResolver sampleSched = fastPathResolver sampleSched2 ∧
    fastPathResolver sampleSched2 = fastPathResolver sampleSched2 :=
  ⟨⟨by decide, by decide, by decide, by decide⟩,
    ⟨by decide, by decide, by decide, by decide⟩,
    claim9_idempotent sampleSched sampleSched2 sampleSched2
      ⟨by decide, by decide, by decide, by decide⟩
      ⟨by decide, by decide, by decide, by decide⟩
      ⟨by decide, by decide, by decide, by decide⟩ rfl rfl⟩

/-- Claim C10: the byte offset of `goid` implied by the go1.25 `g`
structure layout of runtime_go1.25.go, with 8-byte pointers, is 152, and
equals the offset table's entry for the key "go1.25", so the struct-field
fast path and the table-driven fast path resolve the same field for that
version. -/
theorem claim10_layout_matches_table :
    g125goidOffset = 152 ∧
    goMapGet offsetDict "go1.25" = 152 ∧
    g125goidOffset = (goMapGet offsetDict "go1.25").toNat := by
  refine ⟨by decide, by decide, by decide⟩

end FsyyftGoroutine
